import Mathlib

/-!
Shallow embedding of the twist-status-server repository
(`src/server.js`, `src/lib/payloadIndex.js`, `src/unnamed/part_000`..`part_003`).

Strings are modelled as lists of characters (`Str`).  JavaScript string
primitives (`replace(/\D/g,'')`, `slice`, `trim`, `toUpperCase`, ...) are
translated to the corresponding list operations.  File contents (the webhook
log, `code.json`, the payload index) are passed explicitly as values, so the
stateful JS functions become pure functions of their file state.
-/

abbrev Str := List Char

/-- JS `String(v).replace(/\D/g, '')`: keep only decimal digits. -/
def digitsOnly (s : Str) : Str := s.filter Char.isDigit

/-- JS `s.slice(-n)`: the last `n` elements (the whole list when shorter). -/
def lastN (n : Nat) (s : Str) : Str := s.drop (s.length - n)

/-- JS `String.prototype.trim`: drop whitespace at both ends. -/
def trimStr (s : Str) : Str :=
  ((s.dropWhile Char.isWhitespace).reverse.dropWhile Char.isWhitespace).reverse

/-- JS `toLowerCase` (the sources only feed it ASCII). -/
def toLowerStr (s : Str) : Str := s.map Char.toLower

/-- JS `toUpperCase` (the sources only feed it ASCII). -/
def toUpperStr (s : Str) : Str := s.map Char.toUpper

/-- JS `replace(/\s/g, '')`: drop all whitespace. -/
def stripSpaces (s : Str) : Str := s.filter (fun c => !c.isWhitespace)

/-- JS `String(amount).replace(/[^\d.]/g, '')`: keep digits and dots. -/
def cleanAmount (s : Str) : Str := s.filter (fun c => c.isDigit || c = '.')

/-- Numeric value of a digit string (empty list gives 0, as JS `Number('')`). -/
def natVal (s : Str) : Nat := s.foldl (fun acc c => 10 * acc + (c.toNat - 48)) 0

/-- JS `Number(s)` on a string of digits and dots only (the output of
`cleanAmount`): `none` models `NaN` (more than one dot, or a lone dot).
Values are rationals; IEEE-754 rounding and overflow of JS numbers are outside
the model (the claims compare amounts of ordinary magnitude). -/
def parseCleanAmount (s : Str) : Option ℚ :=
  if s = [] then some 0
  else
    match List.splitOn '.' s with
    | [ip] => some (natVal ip)
    | [ip, fp] =>
        if ip = [] ∧ fp = [] then none
        else some (mkRat (natVal ip * 10 ^ fp.length + natVal fp) (10 ^ fp.length))
    | _ => none

/-- Lookup in a JS-object-as-map modelled by an association list (newest
binding first, as assignment conses a shadowing binding). -/
def alookup (k : Str) : List (Str × Str) → Option Str
  | [] => none
  | (k', v) :: rest => if k' = k then some v else alookup k rest

/-! ## SHA-256 (`crypto.createHash('sha256')`)

A direct executable implementation over byte lists (`Nat` values `< 256`),
with 32-bit words as `Nat` reduced mod `2^32`. -/

def add32 (a b : Nat) : Nat := (a + b) % 4294967296

def rotr32 (n x : Nat) : Nat := ((x >>> n) ||| (x <<< (32 - n))) % 4294967296

def shaCh (x y z : Nat) : Nat := (x &&& y) ^^^ ((x ^^^ 4294967295) &&& z)

def shaMaj (x y z : Nat) : Nat := (x &&& y) ^^^ (x &&& z) ^^^ (y &&& z)

def bigSigma0 (x : Nat) : Nat := rotr32 2 x ^^^ rotr32 13 x ^^^ rotr32 22 x

def bigSigma1 (x : Nat) : Nat := rotr32 6 x ^^^ rotr32 11 x ^^^ rotr32 25 x

def smallSigma0 (x : Nat) : Nat := rotr32 7 x ^^^ rotr32 18 x ^^^ (x >>> 3)

def smallSigma1 (x : Nat) : Nat := rotr32 17 x ^^^ rotr32 19 x ^^^ (x >>> 10)

def shaK : List Nat :=
  [1116352408, 1899447441, 3049323471, 3921009573, 961987163, 1508970993,
   2453635748, 2870763221, 3624381080, 310598401, 607225278, 1426881987,
   1925078388, 2162078206, 2614888103, 3248222580, 3835390401, 4022224774,
   264347078, 604807628, 770255983, 1249150122, 1555081692, 1996064986,
   2554220882, 2821834349, 2952996808, 3210313671, 3336571891, 3584528711,
   113926993, 338241895, 666307205, 773529912, 1294757372, 1396182291,
   1695183700, 1986661051, 2177026350, 2456956037, 2730485921, 2820302411,
   3259730800, 3345764771, 3516065817, 3600352804, 4094571909, 275423344,
   430227734, 506948616, 659060556, 883997877, 958139571, 1322822218,
   1537002063, 1747873779, 1955562222, 2024104815, 2227730452, 2361852424,
   2428436474, 2756734187, 3204031479, 3329325298]

structure Hash8 where
  ha : Nat
  hb : Nat
  hc : Nat
  hd : Nat
  he : Nat
  hf : Nat
  hg : Nat
  hh : Nat

def shaH0 : Hash8 :=
  ⟨1779033703, 3144134277, 1013904242, 2773480762,
   1359893119, 2600822924, 528734635, 1541459225⟩

/-- Big-endian 8-byte encoding of a length-in-bits value. -/
def be64 (n : Nat) : List Nat :=
  [(n >>> 56) % 256, (n >>> 48) % 256, (n >>> 40) % 256, (n >>> 32) % 256,
   (n >>> 24) % 256, (n >>> 16) % 256, (n >>> 8) % 256, n % 256]

/-- Big-endian 4-byte encoding of a 32-bit word. -/
def be32 (n : Nat) : List Nat :=
  [(n >>> 24) % 256, (n >>> 16) % 256, (n >>> 8) % 256, n % 256]

/-- SHA-256 padding: append 0x80, zero bytes to 56 mod 64, then the 64-bit
big-endian message length in bits. -/
def padMsg (msg : List Nat) : List Nat :=
  msg ++ 128 :: List.replicate ((119 - msg.length % 64) % 64) 0 ++ be64 (8 * msg.length)

/-- Split into 64-byte chunks (fuel makes the recursion structural; one unit
of fuel is spent per chunk, so fuel equal to the length always suffices). -/
def chunks64F : Nat → List Nat → List (List Nat)
  | _, [] => []
  | 0, _ :: _ => []
  | n + 1, b :: rest => ((b :: rest).take 64) :: chunks64F n ((b :: rest).drop 64)

def chunks64 (l : List Nat) : List (List Nat) := chunks64F l.length l

/-- Group bytes into big-endian 32-bit words (the first 16 schedule words). -/
def bytesToWords : List Nat → List Nat
  | a :: b :: c :: d :: rest =>
      (a * 16777216 + b * 65536 + c * 256 + d) :: bytesToWords rest
  | _ => []

/-- Extend the 16-word schedule by `n` further words. -/
def extendSchedule (w : List Nat) : Nat → List Nat
  | 0 => w
  | n + 1 =>
      let w' := extendSchedule w n
      w' ++ [add32 (add32 (smallSigma1 (w'.getD (w'.length - 2) 0)) (w'.getD (w'.length - 7) 0))
                   (add32 (smallSigma0 (w'.getD (w'.length - 15) 0)) (w'.getD (w'.length - 16) 0))]

/-- One SHA-256 round: `wk` is the pair (schedule word, round constant). -/
def roundStep (st : Hash8) (wk : Nat × Nat) : Hash8 :=
  let t1 := add32 (add32 (add32 st.hh (bigSigma1 st.he)) (add32 (shaCh st.he st.hf st.hg) wk.2)) wk.1
  let t2 := add32 (bigSigma0 st.ha) (shaMaj st.ha st.hb st.hc)
  ⟨add32 t1 t2, st.ha, st.hb, st.hc, add32 st.hd t1, st.he, st.hf, st.hg⟩

def processChunk (H : Hash8) (chunk : List Nat) : Hash8 :=
  let w := extendSchedule (bytesToWords chunk) 48
  let st := (w.zip shaK).foldl roundStep H
  ⟨add32 H.ha st.ha, add32 H.hb st.hb, add32 H.hc st.hc, add32 H.hd st.hd,
   add32 H.he st.he, add32 H.hf st.hf, add32 H.hg st.hg, add32 H.hh st.hh⟩

def hashOut (H : Hash8) : List Nat :=
  be32 H.ha ++ be32 H.hb ++ be32 H.hc ++ be32 H.hd ++
  be32 H.he ++ be32 H.hf ++ be32 H.hg ++ be32 H.hh

/-- SHA-256 digest (32 bytes) of a byte list. -/
def sha256Bytes (msg : List Nat) : List Nat :=
  hashOut ((chunks64 (padMsg msg)).foldl processChunk shaH0)

/-- UTF-8 encoding of a character list (Node hashes strings as UTF-8). -/
def utf8Encode (s : Str) : List Nat :=
  s.flatMap fun c =>
    let n := c.toNat
    if n < 128 then [n]
    else if n < 2048 then [192 + n / 64, 128 + n % 64]
    else if n < 65536 then [224 + n / 4096, 128 + n / 64 % 64, 128 + n % 64]
    else [240 + n / 262144, 128 + n / 4096 % 64, 128 + n / 64 % 64, 128 + n % 64]

def hexDigit (n : Nat) : Char := if n < 10 then Char.ofNat (48 + n) else Char.ofNat (87 + n)

def byteHex (b : Nat) : Str := [hexDigit (b / 16), hexDigit (b % 16)]

/-- `crypto.createHash('sha256').update(s).digest('hex')`. -/
def sha256hexOfStr (s : Str) : Str := (sha256Bytes (utf8Encode s)).flatMap byteHex

/-! ## Code Derivation Service

Three implementations appear in the sources:
* `getOrGenerateTwistCode` in `src/server.js` (second variant, lines 162-175),
  `src/lib/payloadIndex.js` (lines 16-25), `src/unnamed/part_001`/`part_002`/
  `part_003`: keyed by `sha256(loanId + '|' + expiration)` hex, new codes
  drawn from `Math.random()` (modelled by an explicit digit stream `rnd`);
* `generate12DigitCode` / `getOrGenerateTwistCode` in `src/server.js` (third
  variant, lines 708-743): deterministic SHA-256 derivation, store keyed by
  the plain `trim(loan_id) + '|' + trim(expiration)` string plus a `last`
  pointer (whose wall-clock stamp `t` is outside the model). -/

/-- Character for a decimal digit value (`(hash[i] % 10).toString()`). -/
def digitChar (n : Nat) : Char := Char.ofNat (48 + n % 10)

/-- The `for` loop of `generate12DigitCode`: walk the digest bytes, appending
`byte % 10` while fewer than 12 digits have been produced. -/
def codeLoopAux : List Nat → Str → Str
  | [], out => out
  | b :: rest, out => if out.length < 12 then codeLoopAux rest (out ++ [digitChar b]) else out

/-- The `while (out.length < 12) out += '0'` padding after the loop. -/
def padTo12 (out : Str) : Str := out ++ List.replicate (12 - out.length) '0'

/-- The seed string `trim(loan_id) + '|' + trim(contract_expiration)`. -/
def seedOf (loan exp : Str) : Str := trimStr loan ++ '|' :: trimStr exp

/-- `generate12DigitCode` (src/server.js lines 708-718): SHA-256 the seed and
map digest bytes to digits via `% 10` until 12 digits are produced, then pad
with zeros to length 12. -/
def generate12DigitCode (loan exp : Str) : Str :=
  padTo12 (codeLoopAux (sha256Bytes (utf8Encode (seedOf loan exp))) [])

/-- Result of a get-or-generate call: the returned code (or `null`) and the
state of the code store afterwards. -/
structure GenResult where
  code : Option Str
  store : List (Str × Str)
  deriving DecidableEq

/-- `getOrGenerateTwistCode` of src/server.js lines 162-175 (same logic in
src/lib/payloadIndex.js lines 16-25): key `sha256hex(loanId + '|' + exp)`;
return the stored (truthy) value if present, otherwise 12 digits from
`Math.random()` — modelled by the digit stream `rnd` — which are stored.
The JS source reads the store from `code.json`; here it is the argument. -/
def getOrGenerateTwistCodeV2 (store : List (Str × Str)) (loanId exp : Str)
    (rnd : Nat → Nat) : GenResult :=
  if loanId = [] ∨ exp = [] then ⟨none, store⟩
  else
    let hash := sha256hexOfStr (loanId ++ '|' :: exp)
    let existing := (alookup hash store).getD []
    if existing ≠ [] then ⟨some existing, store⟩
    else
      let newCode := (List.range 12).map fun i => digitChar (rnd i)
      ⟨some newCode, (hash, newCode) :: store⟩

/-- The `code.json` contents of the third src/server.js variant: the flat
key-to-code mapping plus the `last` pointer (key and code; the stamp `t` is
not modelled).  Keys always contain a bar, so `last` never collides with a
code key and is modelled as a separate field. -/
structure CodeDb where
  codes : List (Str × Str)
  last : Option (Str × Str)
  deriving DecidableEq

/-- `getOrGenerateTwistCode` of src/server.js lines 728-743: key is the plain
trimmed seed string; a stored truthy value is returned unchanged (only the
`last` pointer is rewritten), otherwise `generate12DigitCode` supplies the
new code, which is stored. -/
def getOrGenerateTwistCodeV3 (db : CodeDb) (loan exp : Str) : Option Str × CodeDb :=
  if loan = [] ∨ exp = [] then (none, db)
  else
    let key := seedOf loan exp
    let existing := (alookup key db.codes).getD []
    if existing ≠ [] then (some existing, ⟨db.codes, some (key, existing)⟩)
    else
      let code := generate12DigitCode loan exp
      (some code, ⟨(key, code) :: db.codes, some (key, code)⟩)

/-! ## Format Normalizer -/

/-- The regex `^(\d{2})\/(\d{2})$` of `parseMMYY` / `toMMYY` /
`normalizeMMYYFromStored`, returning the two capture groups. -/
def parseSlashMMYY (s : Str) : Option (Str × Str) :=
  match s with
  | [a, b, sl, c, d] =>
      if sl = '/' ∧ a.isDigit ∧ b.isDigit ∧ c.isDigit ∧ d.isDigit then
        some ([a, b], [c, d])
      else none
  | _ => none

/-- The regex `^(\d{4})-(\d{2})-(\d{2})$`, returning the capture groups. -/
def parseISODate (s : Str) : Option (Str × Str × Str) :=
  match s with
  | [y1, y2, y3, y4, k1, m1, m2, k2, d1, d2] =>
      if k1 = '-' ∧ k2 = '-' ∧
         y1.isDigit ∧ y2.isDigit ∧ y3.isDigit ∧ y4.isDigit ∧
         m1.isDigit ∧ m2.isDigit ∧ d1.isDigit ∧ d2.isDigit then
        some ([y1, y2, y3, y4], [m1, m2], [d1, d2])
      else none
  | _ => none

/-- The regex test `/^\d{4}$/`. -/
def isFourDigits (s : Str) : Bool := s.length = 4 && s.all Char.isDigit

/-- `parseMMYY` (src/server.js lines 180-183): match `MM/YY`, no trim. -/
def parseMMYY (s : Str) : Option (Str × Str) := parseSlashMMYY s

/-- `toMMYY` (src/lib/payloadIndex.js lines 170-177, in the validation part):
trim, then 4 digits stay as they are, `MM/YY` drops the slash, `YYYY-MM-DD`
becomes `MM` + last two year digits, anything else is `null`. -/
def toMMYY (raw : Str) : Option Str :=
  let s := trimStr raw
  if isFourDigits s then some s
  else
    match parseSlashMMYY s with
    | some (mm, yy) => some (mm ++ yy)
    | none =>
        match parseISODate s with
        | some (yyyy, mm, _) => some (mm ++ lastN 2 yyyy)
        | none => none

/-- `normalizeMMYYFromStored` (src/server.js lines 184-191): empty gives
`null`; `MM/YY` is returned as `MM/YY`; `YYYY-MM-DD` becomes `MM/YY`;
anything else (including a 4-digit `MMYY`) is `null`. -/
def normalizeMMYYFromStored (v : Str) : Option Str :=
  if v = [] then none
  else
    match parseSlashMMYY v with
    | some (mm, yy) => some (mm ++ '/' :: yy)
    | none =>
        match parseISODate v with
        | some (yyyy, mm, _) => some (mm ++ '/' :: lastN 2 yyyy)
        | none => none

/-- `normE164CA` (src/server.js lines 211-215, src/unnamed/part_002 lines
173-177): strip non-digits, take `slice(-10)`, and return `+1` + that slice
exactly when the slice has length 10. -/
def normE164CA (v : Str) : Option Str :=
  let digits := digitsOnly v
  let l10 := lastN 10 digits
  if l10.length = 10 then some ('+' :: '1' :: l10) else none

/-- `last10` (several variants): last 10 digits of the stripped value. -/
def last10 (v : Str) : Str := lastN 10 (digitsOnly v)

/-- `middle4Of` (src/server.js lines 176-179): `null` for a falsy or short
code, otherwise `slice(4, 8)`. -/
def middle4Of (c : Str) : Option Str :=
  if c = [] ∨ c.length < 12 then none else some ((c.drop 4).take 4)

/-! ## Record Store Reader

A physical log line is abstracted into the two pieces of data the sources
extract from it: the `Date.parse` value of the bracketed timestamp token
(`none` when the token is absent or unparseable) and the JSON object matched
by `/{.*}/` and parsed by `JSON.parse` (`none` when there is no parseable
object).  The JSON object itself is abstracted into the fields the engines
read.  `available_credit` is a JSON number, modelled as a rational. -/

structure Entry where
  loan_id : Option Str := none
  contract_expiration : Option Str := none
  email : Option Str := none
  customer_email : Option Str := none
  phone : Option Str := none
  customer_phone : Option Str := none
  postal_code : Option Str := none
  postal : Option Str := none
  available_credit : Option ℚ := none
  transaction_id : Option Str := none
  deriving DecidableEq

structure LogLine where
  ts : Option Int := none
  entry : Option Entry := none
  deriving DecidableEq

/-- JS `a || b` on string-valued optional fields: `b` when `a` is absent or
empty (falsy). -/
def jsOr (a : Option Str) (b : Str) : Str :=
  match a with
  | some s => if s = [] then b else s
  | none => b

/-- A log line paired with its original append position, as built by the
`withIndex` map of `readMergedLogText` (src/lib/payloadIndex.js, validation
part, lines 156-160). -/
structure IndexedLine where
  line : LogLine
  idx : Nat
  deriving DecidableEq

/-- The sort comparator of `readMergedLogText` (lines 162-165), as the
boolean relation `comparator(a, b) <= 0` ("a may come before b"): newest
timestamp first when both timestamps parse and differ, original append order
otherwise. -/
def cmpLines (a b : IndexedLine) : Bool :=
  match a.line.ts, b.line.ts with
  | some x, some y => if x ≠ y then decide (y < x) else decide (a.idx ≤ b.idx)
  | _, _ => decide (a.idx ≤ b.idx)

/-- Stable merge of two runs: the left element is kept first on ties, as in a
stable `Array.prototype.sort`.  Fuel (one unit per emitted element) makes the
recursion structural; the wrapper `mergeRuns` supplies enough. -/
def mergeRunsF (le : α → α → Bool) : Nat → List α → List α → List α
  | _, [], ys => ys
  | _, x :: xs, [] => x :: xs
  | 0, x :: xs, y :: ys => x :: xs ++ y :: ys
  | n + 1, x :: xs, y :: ys =>
      if le x y then x :: mergeRunsF le n xs (y :: ys) else y :: mergeRunsF le n (x :: xs) ys

def mergeRuns (le : α → α → Bool) (xs ys : List α) : List α :=
  mergeRunsF le (xs.length + ys.length) xs ys

/-- Stable top-down merge sort over contiguous halves, modelling
`Array.prototype.sort` (which ECMAScript requires to be a stable sort for a
consistent comparator).  Fuel bounds the recursion depth; the wrapper
supplies the list length, which always suffices. -/
def mergeSortStableF (le : α → α → Bool) : Nat → List α → List α
  | 0, l => l
  | n + 1, l =>
      if l.length ≤ 1 then l
      else
        mergeRuns le (mergeSortStableF le n (l.take (l.length / 2)))
                     (mergeSortStableF le n (l.drop (l.length / 2)))

def mergeSortStable (le : α → α → Bool) (l : List α) : List α :=
  mergeSortStableF le l.length l

/-- Attach append positions `n, n+1, ...` to a list of lines. -/
def indexFrom : List LogLine → Nat → List IndexedLine
  | [], _ => []
  | l :: rest, n => ⟨l, n⟩ :: indexFrom rest (n + 1)

/-- `readMergedLogText` (src/lib/payloadIndex.js, validation part, lines
141-168): concatenate the lines of the backing files (primary first, fallback
second), index them, and sort with `cmpLines`.  The result is the sequence of
lines of the merged text. -/
def readMergedLogLines (files : List (List LogLine)) : List IndexedLine :=
  mergeSortStable cmpLines (indexFrom files.flatten 0)

/-- Does a line hold a JSON object whose `loan_id` (with `|| ''`) ends with
the given suffix? -/
def lineMatches (suffix : Str) (l : LogLine) : Bool :=
  match l.entry with
  | some e => suffix.isSuffixOf (jsOr e.loan_id [])
  | none => false

/-- `findLatestPayloadByLoanIdEndsWith` (src/lib/payloadIndex.js, validation
part, lines 180-196): scan the merged sorted text for the first line whose
JSON object's `loan_id` ends with `last6`. -/
def findLatestPayloadByLoanIdEndsWith (files : List (List LogLine)) (last6 : Str) : Option Entry :=
  ((readMergedLogLines files).find? fun p => lineMatches last6 p.line).bind fun p => p.line.entry

/-- `readLatestPayloadByLoanIdEndsWith` of src/unnamed/part_002 (lines
154-170): scan the single chosen log file newest-to-oldest (reversed append
order) for the first line whose JSON object's `loan_id` ends with `last6`. -/
def readLatestSingle (lines : List LogLine) (last6 : Str) : Option Entry :=
  (lines.reverse.find? (lineMatches last6)).bind fun l => l.entry

/-! ## Validation Engine: validateTransaction (src/lib/payloadIndex.js,
validation part, lines 239-287) -/

/-- `expCandidates` of `getMiddle4FromCodeJson` (lines 205-219): the set of
plausible alternate encodings of an expiration value, in JS `Set` insertion
order with duplicates dropped. -/
def expCandidatesRaw (s : Str) : List Str :=
  (if s ≠ [] then [s] else [])
  ++ (match parseSlashMMYY s with
      | some (mm, yy) => [mm ++ yy, mm ++ '/' :: yy]
      | none => [])
  ++ (if isFourDigits s then [s, s.take 2 ++ '/' :: s.drop 2] else [])
  ++ (match parseISODate s with
      | some (yyyy, mm, _) => [mm ++ lastN 2 yyyy, mm ++ '/' :: lastN 2 yyyy, s]
      | none => [])

/-- Keep first occurrences, as JS `Set` insertion does (fuel makes the
recursion structural; the wrapper supplies the list length). -/
def dedupF : Nat → List Str → List Str
  | _, [] => []
  | 0, l => l
  | n + 1, x :: rest => x :: dedupF n (rest.filter (· ≠ x))

def dedupKeepFirst (l : List Str) : List Str := dedupF l.length l

def expCandidates (v : Str) : List Str := dedupKeepFirst (expCandidatesRaw (trimStr v))

/-- The lookup loop of `getMiddle4FromCodeJson` (lines 221-225): for each
candidate encoding, look up `sha256hex(loanId + '|' + exp)` in the code map
and return `slice(4, 8)` of the first truthy hit of length at least 12. -/
def firstMid4Hit (loanId : Str) (m : Str → Option Str) : List Str → Option Str
  | [] => none
  | e :: rest =>
      match m (sha256hexOfStr (loanId ++ '|' :: e)) with
      | some c => if c ≠ [] ∧ 12 ≤ c.length then some ((c.drop 4).take 4) else firstMid4Hit loanId m rest
      | none => firstMid4Hit loanId m rest

/-- `getMiddle4FromCodeJson` (lines 198-228).  `codeMap = none` models a
missing or unparseable `code.json`. -/
def getMiddle4FromCodeJson (loanId expirationRaw : Str) (codeMap : Option (Str → Option Str)) : Option Str :=
  if loanId = [] ∨ expirationRaw = [] then none
  else
    match codeMap with
    | none => none
    | some m => firstMid4Hit loanId m (expCandidates expirationRaw)

structure TxPayload where
  amount : Str := []
  cardNumber : Str := []
  expiration : Str := []
  twist : Str := []
  postal : Str := []

structure VResult where
  ok : Bool
  status : Str
  message : Str
  matchedLoan : Option Str := none
  deriving DecidableEq

def vDenied (msg : Str) : VResult := ⟨false, ("denied").data, msg, none⟩

/-- The final credit check of `validateTransaction` (lines 276-286):
`!Number.isFinite(amt) || (Number.isFinite(acAvail) && amt > acAvail)` denies
with the exceeds message (`acAvail` is finite in the model), otherwise the
transaction is approved. -/
def vAmountCheck (p : TxPayload) (latest : Entry) (loanId : Str) : VResult :=
  match parseCleanAmount (cleanAmount p.amount) with
  | none => vDenied (("Amount exceeds available credit.").data)
  | some amt =>
      if amt > (latest.available_credit).getD 0 then
        vDenied (("Amount exceeds available credit.").data)
      else ⟨true, ("approved").data, ("Validated").data, some loanId⟩

/-- `validateTransaction` (src/lib/payloadIndex.js, validation part, lines
239-287): card length 14, record lookup by last-6 suffix, expiration match
via `toMMYY`, TWIST middle-4 match, postal match, then `vAmountCheck`. -/
def validateTransaction (p : TxPayload) (files : List (List LogLine))
    (codeMap : Option (Str → Option Str)) : VResult :=
  let cleanCard := digitsOnly p.cardNumber
  if cleanCard.length ≠ 14 then vDenied (("Card number invalid.").data)
  else
    match findLatestPayloadByLoanIdEndsWith files (lastN 6 cleanCard) with
    | none => vDenied (("Card number invalid.").data)
    | some latest =>
        let loanId := jsOr latest.loan_id []
        let acPostal := stripSpaces (toUpperStr (trimStr (jsOr latest.postal_code (jsOr latest.postal []))))
        let acExpiryRaw := jsOr latest.contract_expiration []
        let formExpMMYY := toMMYY p.expiration
        let storedMMYY := toMMYY acExpiryRaw
        if formExpMMYY = none ∨ storedMMYY = none ∨ formExpMMYY ≠ storedMMYY then
          vDenied (("Expiration mismatch.").data)
        else
          let mid4 := getMiddle4FromCodeJson loanId acExpiryRaw codeMap
          if mid4 = none ∨ some p.twist ≠ mid4 then vDenied (("TWIST code mismatch.").data)
          else
            let inPostal := stripSpaces (toUpperStr (trimStr p.postal))
            if acPostal ≠ [] ∧ inPostal ≠ acPostal then vDenied (("Postal code mismatch.").data)
            else vAmountCheck p latest loanId

/-! ## Validation Engine: the /pre-validate handler

Embedding of `app.post('/pre-validate')` of src/server.js (second variant,
lines 220-323) and src/unnamed/part_002 (lines 180-283); the two handlers
have identical decision logic and differ only in how the log file is chosen.
The OTP collaborator (`fetch('.../verify-otp')` plus `otpData.success`) is
the oracle argument `otp`; the number of collaborator calls made is reported
in the result. -/

structure PreReq where
  transaction_id : Str := []
  orderno : Str := []
  amount : Str := []
  cardNumber : Str := []
  expiration : Str := []
  twist : Str := []
  email : Str := []
  phone : Str := []
  postal : Str := []
  otpCode : Str := []

structure PreResult where
  httpStatus : Nat
  ok : Bool
  message : Str
  loanId : Option Str := none
  statuses : List (Str × Str)
  otpCalls : Nat
  deriving DecidableEq

/-- The record-side comparison values derived from the matched payload
(src/server.js lines 251-256). -/
def acEmailOf (e : Entry) : Str := toLowerStr (trimStr (jsOr e.email (jsOr e.customer_email [])))

def acPhoneOf (e : Entry) : Str := digitsOnly (jsOr e.phone (jsOr e.customer_phone []))

def acPostalOf (e : Entry) : Str := toUpperStr (trimStr (jsOr e.postal_code (jsOr e.postal [])))

def acAvailOf (e : Entry) : ℚ := (e.available_credit).getD 0

def acExpiryRawOf (e : Entry) : Str := jsOr e.contract_expiration []

/-- The fixed issuer prefix `'71461567'` of the card check. -/
def issuerBin : Str := ("71461567").data

def preDeny (msg : Str) (st : List (Str × Str)) (calls : Nat) : PreResult :=
  ⟨200, false, msg, none, st, calls⟩

/-- The presence check of the handler (src/server.js line 237): truthiness of
the ten required fields. -/
def missingRequired (r : PreReq) : Bool :=
  r.transaction_id = [] || r.orderno = [] || r.amount = [] || r.cardNumber = [] ||
  r.expiration = [] || r.twist = [] || r.email = [] || r.phone = [] ||
  r.postal = [] || r.otpCode = []

/-- The amount rejection condition of the handler (src/server.js lines
277-279): `Number.isFinite(acAvail) && Number.isFinite(amt) && amt > acAvail`
(`acAvail` is finite in the model; a `NaN` amount is `none` and passes). -/
def preAmountExceeds (amount : Str) (acAvail : ℚ) : Bool :=
  match parseCleanAmount (cleanAmount amount) with
  | some amt => decide (amt > acAvail)
  | none => false

/-- The OTP step of the handler (src/server.js lines 302-318): normalize the
phone, call the collaborator once, deny on a falsy success flag, otherwise
mark the transaction pending and succeed. -/
def preOtpStep (r : PreReq) (loanId : Str) (otp : Str → Str → Bool)
    (statuses : List (Str × Str)) : PreResult :=
  match normE164CA r.phone with
  | none => preDeny (("Phone format invalid.").data) statuses 0
  | some normPhone =>
      if otp normPhone r.otpCode then
        ⟨200, true, ("Validated").data, some loanId,
           (r.transaction_id, ("pending").data) :: statuses, 1⟩
      else preDeny (("OTP invalid or expired.").data) statuses 1

/-- The expiration and TWIST steps of the handler (src/server.js lines
282-300), followed by `preOtpStep`. -/
def preCodeSteps (r : PreReq) (latest : Entry) (codeMap : Option (Str → Option Str))
    (otp : Str → Str → Bool) (statuses : List (Str × Str)) : PreResult :=
  match parseMMYY r.expiration with
  | none => preDeny (("Expiration format invalid.").data) statuses 0
  | some (mm, yy) =>
      if normalizeMMYYFromStored (acExpiryRawOf latest) ≠ some (mm ++ '/' :: yy) then
        preDeny (("Expiration does not match contract.").data) statuses 0
      else
        let m := codeMap.getD fun _ => none
        let fullCode := m (sha256hexOfStr (jsOr latest.loan_id [] ++ '|' :: acExpiryRawOf latest))
        let mid4 := fullCode.bind middle4Of
        if mid4 = none ∨ some r.twist ≠ mid4 then
          preDeny (("TWIST code incorrect.").data) statuses 0
        else preOtpStep r (jsOr latest.loan_id []) otp statuses

/-- The `/pre-validate` handler.  `logLines` is the chosen webhook log (in
append order), `codeMap` the parsed `code.json` (`none` when the file is
missing or unparseable), `otp` the OTP collaborator, `statuses` the in-memory
transaction status store. -/
def preValidate (r : PreReq) (logLines : List LogLine)
    (codeMap : Option (Str → Option Str)) (otp : Str → Str → Bool)
    (statuses : List (Str × Str)) : PreResult :=
  if missingRequired r then
    ⟨400, false, ("Missing required fields.").data, none, statuses, 0⟩
  else
    let cleanCard := digitsOnly r.cardNumber
    if cleanCard.take 8 ≠ issuerBin then preDeny (("Card prefix invalid.").data) statuses 0
    else if cleanCard.length ≠ 16 then preDeny (("Card length invalid.").data) statuses 0
    else
      match readLatestSingle logLines (lastN 6 cleanCard) with
      | none => preDeny (("No matching loan found.").data) statuses 0
      | some latest =>
          if acEmailOf latest ≠ [] ∧ toLowerStr (trimStr r.email) ≠ acEmailOf latest then
            preDeny (("Email does not match account.").data) statuses 0
          else if acPhoneOf latest ≠ [] ∧
              lastN 10 (digitsOnly r.phone) ≠ lastN 10 (acPhoneOf latest) then
            preDeny (("Phone does not match account.").data) statuses 0
          else if acPostalOf latest ≠ [] ∧
              stripSpaces (toUpperStr (trimStr r.postal)) ≠ stripSpaces (acPostalOf latest) then
            preDeny (("Postal code does not match account.").data) statuses 0
          else if preAmountExceeds r.amount (acAvailOf latest) then
            preDeny (("Amount exceeds available credit.").data) statuses 0
          else preCodeSteps r latest codeMap otp statuses

/-! ## Concrete sample data used by the claim-level theorems -/

def c3tx : TxPayload :=
  { cardNumber := ("1234 5678 9012 34").data, expiration := ("03/25").data,
    twist := ("1111").data, amount := ("10").data, postal := ("A1A1A1").data }

def c3rec : Entry :=
  { loan_id := some (("111111901234").data), contract_expiration := some (("bad").data) }

def c3line : LogLine := { ts := some 5, entry := some c3rec }

def c3req : PreReq :=
  { transaction_id := ("T1").data, orderno := ("O1").data, amount := ("10").data,
    cardNumber := ("71461567901234").data, expiration := ("03/25").data,
    twist := ("1111").data, email := ("a@b.c").data, phone := ("4165551234").data,
    postal := ("A1A1A1").data, otpCode := ("123456").data }

def c8rec : Entry :=
  { loan_id := some (("111111901234").data),
    contract_expiration := some (("2025-03-01").data),
    available_credit := some 500 }

def c8map : Str → Option Str := fun k =>
  if k = sha256hexOfStr ((("111111901234").data) ++ '|' :: (("2025-03-01").data)) then
    some (("123456789012").data)
  else none

def c8tx : TxPayload :=
  { amount := ("1.2.3").data, cardNumber := ("12345678901234").data,
    expiration := ("03/25").data, twist := ("5678").data, postal := ("M5V2T6").data }

def c8txEq : TxPayload :=
  { amount := ("500").data, cardNumber := ("12345678901234").data,
    expiration := ("03/25").data, twist := ("5678").data, postal := ("M5V2T6").data }

def c4rec : Entry :=
  { loan_id := some (("889901234567").data),
    contract_expiration := some (("2025-03-15").data),
    email := some (("User@Example.com ").data),
    phone := some (("(416) 555-1234").data),
    postal_code := some (("M5V 2T6").data),
    available_credit := some 500 }

def c4line : LogLine := { ts := some 99, entry := some c4rec }

def c4map : Str → Option Str := fun k =>
  if k = sha256hexOfStr ((("889901234567").data) ++ '|' :: (("2025-03-15").data)) then
    some (("123456789012").data)
  else none

def c4req : PreReq :=
  { transaction_id := ("TX1").data, orderno := ("ORD1").data, amount := ("500").data,
    cardNumber := ("7146 1567 0023 4567").data, expiration := ("03/25").data,
    twist := ("5678").data, email := ("user@example.com").data,
    phone := ("416-555-1234").data, postal := ("m5v2t6").data,
    otpCode := ("111222").data }

def c5req : PreReq :=
  { transaction_id := ("TX5").data, orderno := ("ORD5").data, amount := ("250.25").data,
    cardNumber := ("7146156700234567").data, expiration := ("03/25").data,
    twist := ("5678").data, email := ("user@example.com").data,
    phone := ("1 (416) 555-1234").data, postal := ("M5V 2T6").data,
    otpCode := ("999000").data }

def c6recA : Entry := { loan_id := some (("111222333444").data) }

def c6recB : Entry := { loan_id := some (("999888333444").data) }

def c6A : LogLine := { ts := some 10, entry := some c6recA }

def c6N : LogLine := { ts := none, entry := none }

def c6B : LogLine := { ts := some 20, entry := some c6recB }

def c6w1 : LogLine :=
  { ts := some 100, entry := some { loan_id := some (("555000777888").data) } }

def c6w2 : LogLine :=
  { ts := some 200, entry := some { loan_id := some (("111999777888").data) } }

def c2loan : Str := ("L9").data

def c2exp : Str := ("04/26").data

def c2code : Str := ("123456789012").data

def c2store : List (Str × Str) := [(sha256hexOfStr (c2loan ++ '|' :: c2exp), c2code)]

def c2db : CodeDb := ⟨[(seedOf c2loan c2exp, c2code)], none⟩

/-! ## Supporting lemmas -/

theorem sha256Bytes_length (msg : List Nat) : (sha256Bytes msg).length = 32 := rfl

theorem digitChar_isDigit (n : Nat) : (digitChar n).isDigit = true := by
  have h : n % 10 < 10 := Nat.mod_lt _ (by norm_num)
  unfold digitChar
  generalize n % 10 = k at h
  interval_cases k <;> decide

theorem codeLoopAux_length : ∀ (bs : List Nat) (out : Str), out.length ≤ 12 →
    (codeLoopAux bs out).length = min (out.length + bs.length) 12 := by
  intro bs
  induction bs with
  | nil => intro out h; simp [codeLoopAux]; omega
  | cons b rest ih =>
      intro out h
      simp only [codeLoopAux]
      by_cases h12 : out.length < 12
      · rw [if_pos h12, ih _ (by simp; omega)]
        simp only [List.length_append, List.length_cons, List.length_nil]
        omega
      · rw [if_neg h12]
        simp only [List.length_cons]
        omega

theorem codeLoopAux_digits : ∀ (bs : List Nat) (out : Str),
    (∀ c ∈ out, c.isDigit = true) → ∀ c ∈ codeLoopAux bs out, c.isDigit = true := by
  intro bs
  induction bs with
  | nil => intro out h; simpa [codeLoopAux] using h
  | cons b rest ih =>
      intro out h
      simp only [codeLoopAux]
      by_cases h12 : out.length < 12
      · rw [if_pos h12]
        refine ih _ ?_
        intro c hc
        rcases List.mem_append.mp hc with hc | hc
        · exact h c hc
        · simp only [List.mem_singleton] at hc
          rw [hc]
          exact digitChar_isDigit b
      · rw [if_neg h12]; exact h

/-- Claim C10: `generate12DigitCode` always returns exactly 12 decimal
digits, and the trailing zero-padding loop is a no-op because the SHA-256
digest supplies 32 bytes, more than the 12 needed. -/
theorem c10_theorem (loan exp : Str) :
    (generate12DigitCode loan exp).length = 12 ∧
    (∀ c ∈ generate12DigitCode loan exp, c.isDigit = true) ∧
    (sha256Bytes (utf8Encode (seedOf loan exp))).length = 32 ∧
    padTo12 (codeLoopAux (sha256Bytes (utf8Encode (seedOf loan exp))) []) =
      codeLoopAux (sha256Bytes (utf8Encode (seedOf loan exp))) [] := by
  have hlen : (codeLoopAux (sha256Bytes (utf8Encode (seedOf loan exp))) []).length = 12 := by
    rw [codeLoopAux_length _ _ (by simp), sha256Bytes_length]
    simp
  have hpad : padTo12 (codeLoopAux (sha256Bytes (utf8Encode (seedOf loan exp))) []) =
      codeLoopAux (sha256Bytes (utf8Encode (seedOf loan exp))) [] := by
    simp [padTo12, hlen]
  refine ⟨?_, ?_, sha256Bytes_length _, hpad⟩
  · rw [generate12DigitCode, hpad, hlen]
  · intro c hc
    rw [generate12DigitCode, hpad] at hc
    exact codeLoopAux_digits _ _ (by simp) c hc

/-- Claim C9 (counterexample): an input whose stripped form has 11 digits is
not rejected by `normE164CA` — it yields `+1` plus the last ten digits,
where the claim requires failure for any digit count other than ten. -/
theorem c9_counterexample :
    (digitsOnly (("1-416-555-1234").data)).length = 11 ∧
    normE164CA (("1-416-555-1234").data) = some (("+14165551234").data) := by decide

/-- Claim C9 (amended): `normE164CA` strips non-digits and returns the
`+1`-prefixed last ten digits exactly when at least ten digits remain;
it fails only when fewer than ten digits remain. -/
theorem c9_theorem (v : Str) :
    normE164CA v =
      if 10 ≤ (digitsOnly v).length then some ('+' :: '1' :: lastN 10 (digitsOnly v))
      else none := by
  rcases le_or_lt 10 (digitsOnly v).length with h | h
  · have h10 : (lastN 10 (digitsOnly v)).length = 10 := by
      simp only [lastN, List.length_drop]; omega
    simp [normE164CA, h10, h]
  · have h10 : ¬ (lastN 10 (digitsOnly v)).length = 10 := by
      simp only [lastN, List.length_drop]; omega
    simp [normE164CA, h10, Nat.not_le.mpr h]

/-- Claim C1 (counterexample): in the variants of src/server.js lines 162-175
and src/lib/payloadIndex.js lines 16-25, a first derivation on a fresh store
draws the code from the random source, so two first derivations from the same
pair on fresh stores can differ — they are not the SHA-256-derived value. -/
theorem c1_counterexample :
    (getOrGenerateTwistCodeV2 [] (("L123").data) (("03/25").data) (fun _ => 0)).code ≠
    (getOrGenerateTwistCodeV2 [] (("L123").data) (("03/25").data) (fun _ => 1)).code := by
  decide

/-- Claim C1 (amended): in the deterministic variant (src/server.js lines
708-743), the first derivation on a fresh store is exactly
`generate12DigitCode` — SHA-256 of `trim(loan_id) + '|' + trim(expiration)`
with digest bytes mapped `byte % 10` until 12 digits — and any two
derivations from the same pair on fresh stores agree. -/
theorem c1_theorem (loan exp : Str) (h1 : loan ≠ []) (h2 : exp ≠ []) :
    (getOrGenerateTwistCodeV3 ⟨[], none⟩ loan exp).1 = some (generate12DigitCode loan exp) ∧
    ∀ db db' : CodeDb, db.codes = [] → db'.codes = [] →
      (getOrGenerateTwistCodeV3 db loan exp).1 = (getOrGenerateTwistCodeV3 db' loan exp).1 := by
  constructor
  · simp [getOrGenerateTwistCodeV3, h1, h2, alookup]
  · intro db db' hdb hdb'
    simp [getOrGenerateTwistCodeV3, h1, h2, hdb, hdb', alookup]

theorem c1_witness :
    (("L77").data ≠ ([] : Str)) ∧ (("04/27").data ≠ ([] : Str)) ∧
    ((getOrGenerateTwistCodeV3 ⟨[], none⟩ (("L77").data) (("04/27").data)).1 =
        some (generate12DigitCode (("L77").data) (("04/27").data)) ∧
      ∀ db db' : CodeDb, db.codes = [] → db'.codes = [] →
        (getOrGenerateTwistCodeV3 db (("L77").data) (("04/27").data)).1 =
        (getOrGenerateTwistCodeV3 db' (("L77").data) (("04/27").data)).1) :=
  ⟨by decide, by decide, c1_theorem _ _ (by decide) (by decide)⟩

/-- Claim C2: once a 12-digit code is stored under a pair's key, every later
call with the exact same pair returns the stored code unchanged and leaves
the code mapping intact, in both the hash-keyed variant (src/server.js lines
162-175) and the seed-keyed variant (src/server.js lines 728-743), for any
randomness. -/
theorem c2_theorem (loan exp c : Str) (store : List (Str × Str)) (db : CodeDb)
    (rnd : Nat → Nat) (h1 : loan ≠ []) (h2 : exp ≠ []) (hc : c.length = 12)
    (hv2 : alookup (sha256hexOfStr (loan ++ '|' :: exp)) store = some c)
    (hv3 : alookup (seedOf loan exp) db.codes = some c) :
    getOrGenerateTwistCodeV2 store loan exp rnd = ⟨some c, store⟩ ∧
    (getOrGenerateTwistCodeV3 db loan exp).1 = some c ∧
    ((getOrGenerateTwistCodeV3 db loan exp).2).codes = db.codes := by
  have hcne : c ≠ [] := by
    intro hh
    rw [hh] at hc
    simp at hc
  refine ⟨?_, ?_, ?_⟩ <;>
    simp [getOrGenerateTwistCodeV2, getOrGenerateTwistCodeV3, h1, h2, hv2, hv3, hcne]

theorem isDigit_not_ws (c : Char) (h : c.isDigit = true) : c.isWhitespace = false := by
  by_contra hw
  rw [Bool.not_eq_false] at hw
  simp only [Char.isWhitespace, Bool.or_eq_true, decide_eq_true_eq] at hw
  rcases hw with ((h1 | h1) | h1) | h1 <;> rw [h1] at h <;> simp [Char.isDigit] at h

theorem dropWhile_ws_eq_self (l : Str) (h : ∀ c ∈ l, c.isWhitespace = false) :
    l.dropWhile Char.isWhitespace = l := by
  cases l with
  | nil => rfl
  | cons a t => simp [List.dropWhile, h a (by simp)]

theorem trimStr_eq_self (l : Str) (h : ∀ c ∈ l, c.isWhitespace = false) : trimStr l = l := by
  unfold trimStr
  rw [dropWhile_ws_eq_self l h,
      dropWhile_ws_eq_self l.reverse (fun c hc => h c (List.mem_reverse.mp hc)),
      List.reverse_reverse]

/-- Claim C7 (counterexample): the stored-side normalizer
`normalizeMMYYFromStored` does not map the three formats to the canonical
`0325`: it rejects the 4-digit `MMYY` form outright and canonicalizes the
other two forms to `03/25`, not `0325` (unlike `toMMYY`). -/
theorem c7_counterexample :
    normalizeMMYYFromStored (("0325").data) = none ∧
    normalizeMMYYFromStored (("2025-03-01").data) = some (("03/25").data) ∧
    normalizeMMYYFromStored (("03/25").data) = some (("03/25").data) ∧
    (("03/25").data : Str) ≠ ("0325").data ∧
    toMMYY (("0325").data) = some (("0325").data) := by decide

/-- Claim C7 (amended): the validation-side normalizer `toMMYY` maps all
three formats of one month to the 4-digit `MMYY` form and fails on anything
matching none of the three (after trimming); the stored-side normalizer
`normalizeMMYYFromStored` instead canonicalizes to `MM/YY`, accepts only the
`MM/YY` and `YYYY-MM-DD` forms, and fails on 4-digit `MMYY` input. -/
theorem c7_theorem (m1 m2 y1 y2 a1 a2 d1 d2 : Char)
    (h1 : m1.isDigit = true) (h2 : m2.isDigit = true)
    (h3 : y1.isDigit = true) (h4 : y2.isDigit = true)
    (h5 : a1.isDigit = true) (h6 : a2.isDigit = true)
    (h7 : d1.isDigit = true) (h8 : d2.isDigit = true) :
    toMMYY [m1, m2, y1, y2] = some [m1, m2, y1, y2] ∧
    toMMYY [m1, m2, '/', y1, y2] = some [m1, m2, y1, y2] ∧
    toMMYY [a1, a2, y1, y2, '-', m1, m2, '-', d1, d2] = some [m1, m2, y1, y2] ∧
    (∀ s : Str, isFourDigits (trimStr s) = false → parseSlashMMYY (trimStr s) = none →
        parseISODate (trimStr s) = none → toMMYY s = none) ∧
    normalizeMMYYFromStored [m1, m2, y1, y2] = none ∧
    normalizeMMYYFromStored [m1, m2, '/', y1, y2] = some [m1, m2, '/', y1, y2] ∧
    normalizeMMYYFromStored [a1, a2, y1, y2, '-', m1, m2, '-', d1, d2] =
      some [m1, m2, '/', y1, y2] := by
  have hw : ∀ c : Char, c ∈ ([m1, m2, y1, y2] : Str) → c.isWhitespace = false := by
    intro c hc
    simp only [List.mem_cons, List.not_mem_nil, or_false] at hc
    rcases hc with rfl | rfl | rfl | rfl
    exacts [isDigit_not_ws _ h1, isDigit_not_ws _ h2, isDigit_not_ws _ h3, isDigit_not_ws _ h4]
  have hw2 : ∀ c : Char, c ∈ ([m1, m2, '/', y1, y2] : Str) → c.isWhitespace = false := by
    intro c hc
    simp only [List.mem_cons, List.not_mem_nil, or_false] at hc
    rcases hc with rfl | rfl | rfl | rfl | rfl
    exacts [isDigit_not_ws _ h1, isDigit_not_ws _ h2, by decide,
            isDigit_not_ws _ h3, isDigit_not_ws _ h4]
  have hw3 : ∀ c : Char, c ∈ ([a1, a2, y1, y2, '-', m1, m2, '-', d1, d2] : Str) →
      c.isWhitespace = false := by
    intro c hc
    simp only [List.mem_cons, List.not_mem_nil, or_false] at hc
    rcases hc with rfl | rfl | rfl | rfl | rfl | rfl | rfl | rfl | rfl | rfl
    exacts [isDigit_not_ws _ h5, isDigit_not_ws _ h6, isDigit_not_ws _ h3,
            isDigit_not_ws _ h4, by decide, isDigit_not_ws _ h1, isDigit_not_ws _ h2,
            by decide, isDigit_not_ws _ h7, isDigit_not_ws _ h8]
  refine ⟨?_, ?_, ?_, ?_, ?_, ?_, ?_⟩
  · rw [toMMYY, trimStr_eq_self _ hw]
    simp [isFourDigits, h1, h2, h3, h4]
  · rw [toMMYY, trimStr_eq_self _ hw2]
    simp [isFourDigits, parseSlashMMYY, h1, h2, h3, h4]
  · rw [toMMYY, trimStr_eq_self _ hw3]
    simp [isFourDigits, parseSlashMMYY, parseISODate, h1, h2, h3, h4, h5, h6, h7, h8, lastN]
  · intro s hs1 hs2 hs3
    rw [toMMYY, hs1, hs2, hs3]
    simp
  · simp [normalizeMMYYFromStored, parseSlashMMYY, parseISODate]
  · simp [normalizeMMYYFromStored, parseSlashMMYY, h1, h2, h3, h4]
  · simp [normalizeMMYYFromStored, parseSlashMMYY, parseISODate,
          h1, h2, h3, h4, h5, h6, h7, h8, lastN]

theorem c7_witness :
    (('0').isDigit = true ∧ ('3').isDigit = true ∧ ('2').isDigit = true ∧
      ('5').isDigit = true ∧ ('1').isDigit = true) ∧
    (toMMYY [('0'), '3', '2', '5'] = some [('0'), '3', '2', '5'] ∧
      toMMYY [('0'), '3', '/', '2', '5'] = some [('0'), '3', '2', '5'] ∧
      toMMYY [('2'), '0', '2', '5', '-', '0', '3', '-', '0', '1'] = some [('0'), '3', '2', '5'] ∧
      (∀ s : Str, isFourDigits (trimStr s) = false → parseSlashMMYY (trimStr s) = none →
          parseISODate (trimStr s) = none → toMMYY s = none) ∧
      normalizeMMYYFromStored [('0'), '3', '2', '5'] = none ∧
      normalizeMMYYFromStored [('0'), '3', '/', '2', '5'] = some [('0'), '3', '/', '2', '5'] ∧
      normalizeMMYYFromStored [('2'), '0', '2', '5', '-', '0', '3', '-', '0', '1'] =
        some [('0'), '3', '/', '2', '5']) :=
  ⟨⟨by decide, by decide, by decide, by decide, by decide⟩,
   c7_theorem '0' '3' '2' '5' '2' '0' '0' '1' (by decide) (by decide) (by decide) (by decide)
     (by decide) (by decide) (by decide) (by decide)⟩

/-- Claim C3 (counterexample): a digits-only card number of exactly 14 digits
that does not start with the issuer prefix is not denied at the card step of
`validateTransaction` (the scan proceeds to the account record and fails
later, here on expiration), and the `/pre-validate` handler denies a
14-digit prefixed card for its length, requiring 16 digits — so "exactly 14
characters and the 8-digit issuer prefix" is not what either engine checks. -/
theorem c3_counterexample :
    (digitsOnly c3tx.cardNumber).length = 14 ∧
    (digitsOnly c3tx.cardNumber).take 8 ≠ issuerBin ∧
    validateTransaction c3tx [[c3line]] none = vDenied (("Expiration mismatch.").data) ∧
    validateTransaction c3tx [[c3line]] none ≠ vDenied (("Card number invalid.").data) ∧
    (digitsOnly c3req.cardNumber).length = 14 ∧
    (digitsOnly c3req.cardNumber).take 8 = issuerBin ∧
    preValidate c3req [c3line] none (fun _ _ => true) [] =
      preDeny (("Card length invalid.").data) [] 0 := by decide

/-- Claim C3 (amended): `validateTransaction` requires the digits-only card
number to have exactly 14 digits — with no issuer-prefix check — and denies
`Card number invalid.` before any record lookup (the result does not depend
on the log); the `/pre-validate` handler instead requires the issuer prefix
`71461567` and exactly 16 digits, denying with the distinct messages
`Card prefix invalid.` / `Card length invalid.` before any lookup. -/
theorem c3_theorem :
    (∀ (p : TxPayload) (files : List (List LogLine)) (cm : Option (Str → Option Str)),
      (digitsOnly p.cardNumber).length ≠ 14 →
      validateTransaction p files cm = vDenied (("Card number invalid.").data)) ∧
    (∀ (r : PreReq) (lines : List LogLine) (cm : Option (Str → Option Str))
        (otp : Str → Str → Bool) (st : List (Str × Str)),
      missingRequired r = false →
      (digitsOnly r.cardNumber).take 8 ≠ issuerBin →
      preValidate r lines cm otp st = preDeny (("Card prefix invalid.").data) st 0) ∧
    (∀ (r : PreReq) (lines : List LogLine) (cm : Option (Str → Option Str))
        (otp : Str → Str → Bool) (st : List (Str × Str)),
      missingRequired r = false →
      (digitsOnly r.cardNumber).take 8 = issuerBin →
      (digitsOnly r.cardNumber).length ≠ 16 →
      preValidate r lines cm otp st = preDeny (("Card length invalid.").data) st 0) := by
  refine ⟨?_, ?_, ?_⟩
  · intro p files cm h
    simp [validateTransaction, h]
  · intro r lines cm otp st hmiss h
    simp [preValidate, hmiss, h]
  · intro r lines cm otp st hmiss h1 h2
    simp [preValidate, hmiss, h1, h2]

theorem c3_witness :
    ((digitsOnly (TxPayload.mk (("10").data) (("123").data) (("03/25").data)
        (("1111").data) (("A1A1A1").data)).cardNumber).length ≠ 14 ∧
      validateTransaction (TxPayload.mk (("10").data) (("123").data) (("03/25").data)
        (("1111").data) (("A1A1A1").data)) [] none =
        vDenied (("Card number invalid.").data)) ∧
    (missingRequired c3req = false ∧
      preValidate { c3req with cardNumber := ("991234").data } [] none (fun _ _ => true) [] =
        preDeny (("Card prefix invalid.").data) [] 0) ∧
    preValidate c3req [] none (fun _ _ => true) [] =
      preDeny (("Card length invalid.").data) [] 0 :=
  ⟨⟨by decide, c3_theorem.1 _ [] none (by decide)⟩,
   ⟨by decide, c3_theorem.2.1 _ [] none _ [] (by decide) (by decide)⟩,
   c3_theorem.2.2 c3req [] none _ [] (by decide) (by decide) (by decide)⟩

theorem validateTransaction_reaches_amount (p : TxPayload) (files : List (List LogLine))
    (cm : Option (Str → Option Str)) (latest : Entry)
    (hcard : (digitsOnly p.cardNumber).length = 14)
    (hlook : findLatestPayloadByLoanIdEndsWith files (lastN 6 (digitsOnly p.cardNumber)) = some latest)
    (hexp : ∃ v, toMMYY p.expiration = some v ∧ toMMYY (jsOr latest.contract_expiration []) = some v)
    (htwist : getMiddle4FromCodeJson (jsOr latest.loan_id []) (jsOr latest.contract_expiration []) cm =
      some p.twist)
    (hpostal : stripSpaces (toUpperStr (trimStr (jsOr latest.postal_code (jsOr latest.postal [])))) = [] ∨
      stripSpaces (toUpperStr (trimStr p.postal)) =
        stripSpaces (toUpperStr (trimStr (jsOr latest.postal_code (jsOr latest.postal []))))) :
    validateTransaction p files cm = vAmountCheck p latest (jsOr latest.loan_id []) := by
  obtain ⟨v, hv1, hv2⟩ := hexp
  have hP : ¬(stripSpaces (toUpperStr (trimStr (jsOr latest.postal_code (jsOr latest.postal [])))) ≠ [] ∧
      stripSpaces (toUpperStr (trimStr p.postal)) ≠
        stripSpaces (toUpperStr (trimStr (jsOr latest.postal_code (jsOr latest.postal []))))) := by
    rcases hpostal with h | h
    · exact fun hc => hc.1 h
    · exact fun hc => hc.2 h
  simp [validateTransaction, hcard, hlook, hv1, hv2, htwist, hP]

theorem preCodeSteps_ne_exceeds (r : PreReq) (latest : Entry)
    (cm : Option (Str → Option Str)) (otp : Str → Str → Bool) (st : List (Str × Str)) :
    preCodeSteps r latest cm otp st ≠ preDeny (("Amount exceeds available credit.").data) st 0 := by
  unfold preCodeSteps preOtpStep
  rcases parseMMYY r.expiration with _ | ⟨mm, yy⟩
  · simp [preDeny]
  · simp only []
    split
    · simp [preDeny]
    · split
      · simp [preDeny]
      · rcases normE164CA r.phone with _ | np
        · simp [preDeny]
        · simp only []
          split
          · simp [preDeny]
          · simp [preDeny]

theorem preValidate_reaches_amount (r : PreReq) (lines : List LogLine)
    (cm : Option (Str → Option Str)) (otp : Str → Str → Bool) (st : List (Str × Str))
    (latest : Entry)
    (hmiss : missingRequired r = false)
    (hpre : (digitsOnly r.cardNumber).take 8 = issuerBin)
    (hlen16 : (digitsOnly r.cardNumber).length = 16)
    (hlook : readLatestSingle lines (lastN 6 (digitsOnly r.cardNumber)) = some latest)
    (hemail : acEmailOf latest = [] ∨ toLowerStr (trimStr r.email) = acEmailOf latest)
    (hphone : acPhoneOf latest = [] ∨ lastN 10 (digitsOnly r.phone) = lastN 10 (acPhoneOf latest))
    (hpostal : acPostalOf latest = [] ∨
      stripSpaces (toUpperStr (trimStr r.postal)) = stripSpaces (acPostalOf latest)) :
    preValidate r lines cm otp st =
      if preAmountExceeds r.amount (acAvailOf latest) then
        preDeny (("Amount exceeds available credit.").data) st 0
      else preCodeSteps r latest cm otp st := by
  have hE : ¬(acEmailOf latest ≠ [] ∧ toLowerStr (trimStr r.email) ≠ acEmailOf latest) := by
    rcases hemail with h | h
    · exact fun hc => hc.1 h
    · exact fun hc => hc.2 h
  have hPh : ¬(acPhoneOf latest ≠ [] ∧
      lastN 10 (digitsOnly r.phone) ≠ lastN 10 (acPhoneOf latest)) := by
    rcases hphone with h | h
    · exact fun hc => hc.1 h
    · exact fun hc => hc.2 h
  have hPo : ¬(acPostalOf latest ≠ [] ∧
      stripSpaces (toUpperStr (trimStr r.postal)) ≠ stripSpaces (acPostalOf latest)) := by
    rcases hpostal with h | h
    · exact fun hc => hc.1 h
    · exact fun hc => hc.2 h
  simp [preValidate, hmiss, hpre, hlen16, hlook, hE, hPh, hPo]

set_option maxRecDepth 400000 in
/-- Claim C8 (counterexample): in `validateTransaction` an amount whose
cleaned form fails to parse as a number (`1.2.3`, JS `NaN`) is denied with
the exceeds-available-credit reason even though it is not greater than the
record's available credit (500) — rejection is not equivalent to "strictly
greater than available_credit". -/
theorem c8_counterexample :
    validateTransaction c8tx [[⟨some 5, some c8rec⟩]] (some c8map) =
      vDenied (("Amount exceeds available credit.").data) ∧
    parseCleanAmount (cleanAmount (("1.2.3").data)) = none ∧
    c8rec.available_credit = some 500 := by
  refine ⟨by decide, by decide, by decide⟩

/-- Claim C8 (amended): with the record-matching steps passed, an amount that
parses to a finite number is rejected (with the exceeds reason) iff it is
strictly greater than the record's `available_credit`, and an amount exactly
equal to it is approved by `validateTransaction`; a non-parsing (`NaN`)
amount is also rejected by `validateTransaction`, while the `/pre-validate`
handler rejects at its credit step exactly the parsed amounts strictly
greater than `available_credit`. -/
theorem c8_theorem (p : TxPayload) (files : List (List LogLine))
    (cm : Option (Str → Option Str)) (latest : Entry)
    (hcard : (digitsOnly p.cardNumber).length = 14)
    (hlook : findLatestPayloadByLoanIdEndsWith files (lastN 6 (digitsOnly p.cardNumber)) = some latest)
    (hexp : ∃ v, toMMYY p.expiration = some v ∧ toMMYY (jsOr latest.contract_expiration []) = some v)
    (htwist : getMiddle4FromCodeJson (jsOr latest.loan_id []) (jsOr latest.contract_expiration []) cm =
      some p.twist)
    (hpostal : stripSpaces (toUpperStr (trimStr (jsOr latest.postal_code (jsOr latest.postal [])))) = [] ∨
      stripSpaces (toUpperStr (trimStr p.postal)) =
        stripSpaces (toUpperStr (trimStr (jsOr latest.postal_code (jsOr latest.postal []))))) :
    (validateTransaction p files cm = vDenied (("Amount exceeds available credit.").data) ↔
      (parseCleanAmount (cleanAmount p.amount) = none ∨
        ∃ q, parseCleanAmount (cleanAmount p.amount) = some q ∧
          q > (latest.available_credit).getD 0)) ∧
    (parseCleanAmount (cleanAmount p.amount) = some ((latest.available_credit).getD 0) →
      validateTransaction p files cm =
        ⟨true, ("approved").data, ("Validated").data, some (jsOr latest.loan_id [])⟩) ∧
    (∀ (r : PreReq) (lines : List LogLine) (cm2 : Option (Str → Option Str))
        (otp : Str → Str → Bool) (st : List (Str × Str)) (latest2 : Entry),
      missingRequired r = false →
      (digitsOnly r.cardNumber).take 8 = issuerBin →
      (digitsOnly r.cardNumber).length = 16 →
      readLatestSingle lines (lastN 6 (digitsOnly r.cardNumber)) = some latest2 →
      (acEmailOf latest2 = [] ∨ toLowerStr (trimStr r.email) = acEmailOf latest2) →
      (acPhoneOf latest2 = [] ∨ lastN 10 (digitsOnly r.phone) = lastN 10 (acPhoneOf latest2)) →
      (acPostalOf latest2 = [] ∨
        stripSpaces (toUpperStr (trimStr r.postal)) = stripSpaces (acPostalOf latest2)) →
      (preValidate r lines cm2 otp st =
          preDeny (("Amount exceeds available credit.").data) st 0 ↔
        ∃ q, parseCleanAmount (cleanAmount r.amount) = some q ∧ q > acAvailOf latest2)) := by
  have hbase := validateTransaction_reaches_amount p files cm latest hcard hlook hexp htwist hpostal
  refine ⟨?_, ?_, ?_⟩
  · rw [hbase]
    unfold vAmountCheck
    rcases hp : parseCleanAmount (cleanAmount p.amount) with _ | q
    · simp
    · simp only []
      by_cases hgt : q > (latest.available_credit).getD 0
      · rw [if_pos hgt]
        simp only [true_iff, iff_true]
        exact Or.inr ⟨q, rfl, hgt⟩
      · rw [if_neg hgt]
        constructor
        · intro hcontra
          have hok := congrArg VResult.ok hcontra
          simp [vDenied] at hok
        · rintro (hno | ⟨q', hq', hgt'⟩)
          · exact absurd hno (by simp)
          · exfalso
            have hqq : q = q' := Option.some.inj hq'
            rw [← hqq] at hgt'
            exact hgt hgt'
  · intro heq
    rw [hbase]
    unfold vAmountCheck
    rw [heq]
    simp [lt_irrefl]
  · intro r lines cm2 otp st latest2 hmiss hpre hlen16 hlook2 hemail hphone hpostal2
    rw [preValidate_reaches_amount r lines cm2 otp st latest2 hmiss hpre hlen16 hlook2
        hemail hphone hpostal2]
    by_cases hx : preAmountExceeds r.amount (acAvailOf latest2) = true
    · rw [if_pos hx]
      simp only [true_iff, iff_true]
      unfold preAmountExceeds at hx
      rcases hq : parseCleanAmount (cleanAmount r.amount) with _ | q
      · rw [hq] at hx
        simp at hx
      · rw [hq] at hx
        simp only [decide_eq_true_eq] at hx
        exact ⟨q, rfl, hx⟩
    · rw [if_neg hx]
      constructor
      · intro hcontra
        exact absurd hcontra (preCodeSteps_ne_exceeds r latest2 cm2 otp st)
      · rintro ⟨q, hq, hgt⟩
        exact absurd (by unfold preAmountExceeds; rw [hq]; simpa) hx

set_option maxRecDepth 400000 in
theorem c8_witness :
    ((digitsOnly c8txEq.cardNumber).length = 14 ∧
      findLatestPayloadByLoanIdEndsWith [[⟨some 5, some c8rec⟩]]
        (lastN 6 (digitsOnly c8txEq.cardNumber)) = some c8rec ∧
      (∃ v, toMMYY c8txEq.expiration = some v ∧
        toMMYY (jsOr c8rec.contract_expiration []) = some v) ∧
      getMiddle4FromCodeJson (jsOr c8rec.loan_id []) (jsOr c8rec.contract_expiration [])
        (some c8map) = some c8txEq.twist ∧
      stripSpaces (toUpperStr (trimStr (jsOr c8rec.postal_code (jsOr c8rec.postal [])))) = []) ∧
    ((validateTransaction c8txEq [[⟨some 5, some c8rec⟩]] (some c8map) =
        vDenied (("Amount exceeds available credit.").data) ↔
      (parseCleanAmount (cleanAmount c8txEq.amount) = none ∨
        ∃ q, parseCleanAmount (cleanAmount c8txEq.amount) = some q ∧
          q > (c8rec.available_credit).getD 0)) ∧
    (parseCleanAmount (cleanAmount c8txEq.amount) = some ((c8rec.available_credit).getD 0) →
      validateTransaction c8txEq [[⟨some 5, some c8rec⟩]] (some c8map) =
        ⟨true, ("approved").data, ("Validated").data, some (jsOr c8rec.loan_id [])⟩) ∧
    (∀ (r : PreReq) (lines : List LogLine) (cm2 : Option (Str → Option Str))
        (otp : Str → Str → Bool) (st : List (Str × Str)) (latest2 : Entry),
      missingRequired r = false →
      (digitsOnly r.cardNumber).take 8 = issuerBin →
      (digitsOnly r.cardNumber).length = 16 →
      readLatestSingle lines (lastN 6 (digitsOnly r.cardNumber)) = some latest2 →
      (acEmailOf latest2 = [] ∨ toLowerStr (trimStr r.email) = acEmailOf latest2) →
      (acPhoneOf latest2 = [] ∨ lastN 10 (digitsOnly r.phone) = lastN 10 (acPhoneOf latest2)) →
      (acPostalOf latest2 = [] ∨
        stripSpaces (toUpperStr (trimStr r.postal)) = stripSpaces (acPostalOf latest2)) →
      (preValidate r lines cm2 otp st =
          preDeny (("Amount exceeds available credit.").data) st 0 ↔
        ∃ q, parseCleanAmount (cleanAmount r.amount) = some q ∧ q > acAvailOf latest2))) :=
  ⟨⟨by decide, by decide, ⟨("0325").data, by decide, by decide⟩, by decide, by decide⟩,
   c8_theorem c8txEq [[⟨some 5, some c8rec⟩]] (some c8map) c8rec (by decide) (by decide)
     ⟨("0325").data, by decide, by decide⟩ (by decide) (Or.inl (by decide))⟩

theorem preValidate_reaches_otp (r : PreReq) (lines : List LogLine)
    (cm : Option (Str → Option Str)) (otp : Str → Str → Bool) (st : List (Str × Str))
    (latest : Entry) (mm yy : Str)
    (hmiss : missingRequired r = false)
    (hpre : (digitsOnly r.cardNumber).take 8 = issuerBin)
    (hlen16 : (digitsOnly r.cardNumber).length = 16)
    (hlook : readLatestSingle lines (lastN 6 (digitsOnly r.cardNumber)) = some latest)
    (hemail : acEmailOf latest = [] ∨ toLowerStr (trimStr r.email) = acEmailOf latest)
    (hphone : acPhoneOf latest = [] ∨ lastN 10 (digitsOnly r.phone) = lastN 10 (acPhoneOf latest))
    (hpostal : acPostalOf latest = [] ∨
      stripSpaces (toUpperStr (trimStr r.postal)) = stripSpaces (acPostalOf latest))
    (hamt : preAmountExceeds r.amount (acAvailOf latest) = false)
    (hmmyy : parseMMYY r.expiration = some (mm, yy))
    (hstored : normalizeMMYYFromStored (acExpiryRawOf latest) = some (mm ++ '/' :: yy))
    (htw : ((cm.getD fun _ => none)
        (sha256hexOfStr (jsOr latest.loan_id [] ++ '|' :: acExpiryRawOf latest))).bind middle4Of =
      some r.twist) :
    preValidate r lines cm otp st = preOtpStep r (jsOr latest.loan_id []) otp st := by
  rw [preValidate_reaches_amount r lines cm otp st latest hmiss hpre hlen16 hlook
      hemail hphone hpostal, if_neg (by simp [hamt])]
  unfold preCodeSteps
  rw [hmmyy]
  simp [hstored, htw]

/-- Claim C5: a validation call that passes every record-matching check but
whose OTP verification is rejected by the collaborator is denied with
`OTP invalid or expired.` and the in-memory status store is left unchanged
(the transaction is not marked pending). -/
theorem c5_theorem (r : PreReq) (lines : List LogLine)
    (cm : Option (Str → Option Str)) (otp : Str → Str → Bool) (st : List (Str × Str))
    (latest : Entry) (mm yy : Str) (np : Str)
    (hmiss : missingRequired r = false)
    (hpre : (digitsOnly r.cardNumber).take 8 = issuerBin)
    (hlen16 : (digitsOnly r.cardNumber).length = 16)
    (hlook : readLatestSingle lines (lastN 6 (digitsOnly r.cardNumber)) = some latest)
    (hemail : acEmailOf latest = [] ∨ toLowerStr (trimStr r.email) = acEmailOf latest)
    (hphone : acPhoneOf latest = [] ∨ lastN 10 (digitsOnly r.phone) = lastN 10 (acPhoneOf latest))
    (hpostal : acPostalOf latest = [] ∨
      stripSpaces (toUpperStr (trimStr r.postal)) = stripSpaces (acPostalOf latest))
    (hamt : preAmountExceeds r.amount (acAvailOf latest) = false)
    (hmmyy : parseMMYY r.expiration = some (mm, yy))
    (hstored : normalizeMMYYFromStored (acExpiryRawOf latest) = some (mm ++ '/' :: yy))
    (htw : ((cm.getD fun _ => none)
        (sha256hexOfStr (jsOr latest.loan_id [] ++ '|' :: acExpiryRawOf latest))).bind middle4Of =
      some r.twist)
    (hnp : normE164CA r.phone = some np)
    (hotp : otp np r.otpCode = false) :
    preValidate r lines cm otp st = preDeny (("OTP invalid or expired.").data) st 1 ∧
    (preValidate r lines cm otp st).statuses = st ∧
    (preValidate r lines cm otp st).ok = false := by
  have hbase := preValidate_reaches_otp r lines cm otp st latest mm yy hmiss hpre hlen16
    hlook hemail hphone hpostal hamt hmmyy hstored htw
  rw [hbase]
  unfold preOtpStep
  rw [hnp]
  simp [hotp, preDeny]

/-- Claim C4 (amended): every validation call that reaches the OTP step with
a normalizable phone makes exactly one call to the OTP collaborator and
succeeds iff the collaborator affirms; there is no affirmative confirmation
cache, so a prior confirmation never short-circuits the remote call. -/
theorem c4_theorem (r : PreReq) (lines : List LogLine)
    (cm : Option (Str → Option Str)) (otp : Str → Str → Bool) (st : List (Str × Str))
    (latest : Entry) (mm yy : Str) (np : Str)
    (hmiss : missingRequired r = false)
    (hpre : (digitsOnly r.cardNumber).take 8 = issuerBin)
    (hlen16 : (digitsOnly r.cardNumber).length = 16)
    (hlook : readLatestSingle lines (lastN 6 (digitsOnly r.cardNumber)) = some latest)
    (hemail : acEmailOf latest = [] ∨ toLowerStr (trimStr r.email) = acEmailOf latest)
    (hphone : acPhoneOf latest = [] ∨ lastN 10 (digitsOnly r.phone) = lastN 10 (acPhoneOf latest))
    (hpostal : acPostalOf latest = [] ∨
      stripSpaces (toUpperStr (trimStr r.postal)) = stripSpaces (acPostalOf latest))
    (hamt : preAmountExceeds r.amount (acAvailOf latest) = false)
    (hmmyy : parseMMYY r.expiration = some (mm, yy))
    (hstored : normalizeMMYYFromStored (acExpiryRawOf latest) = some (mm ++ '/' :: yy))
    (htw : ((cm.getD fun _ => none)
        (sha256hexOfStr (jsOr latest.loan_id [] ++ '|' :: acExpiryRawOf latest))).bind middle4Of =
      some r.twist)
    (hnp : normE164CA r.phone = some np) :
    (preValidate r lines cm otp st).otpCalls = 1 ∧
    ((preValidate r lines cm otp st).ok = true ↔ otp np r.otpCode = true) := by
  have hbase := preValidate_reaches_otp r lines cm otp st latest mm yy hmiss hpre hlen16
    hlook hemail hphone hpostal hamt hmmyy hstored htw
  rw [hbase]
  unfold preOtpStep
  rw [hnp]
  by_cases ho : otp np r.otpCode <;> simp [ho, preDeny]

set_option maxRecDepth 400000 in
/-- Claim C4 (counterexample): the engine keeps no record of prior OTP
confirmations — a validation call identical to one that just succeeded still
invokes the OTP collaborator (`otpCalls = 1`, not zero) and is denied when
the collaborator, having consumed the one-time code, now rejects the pair.
No cache consultation exists; the elapsed time is immaterial because the
handler takes no time input at all. -/
theorem c4_counterexample :
    (preValidate c4req [c4line] (some c4map) (fun _ _ => true) []).ok = true ∧
    (preValidate c4req [c4line] (some c4map) (fun _ _ => true) []).statuses =
      [(c4req.transaction_id, ("pending").data)] ∧
    (preValidate c4req [c4line] (some c4map) (fun _ _ => false)
        (preValidate c4req [c4line] (some c4map) (fun _ _ => true) []).statuses).otpCalls = 1 ∧
    (preValidate c4req [c4line] (some c4map) (fun _ _ => false)
        (preValidate c4req [c4line] (some c4map) (fun _ _ => true) []).statuses).ok = false := by
  refine ⟨by decide, by decide, by decide, by decide⟩

set_option maxRecDepth 400000 in
theorem c4_witness :
    (missingRequired c4req = false ∧
      (digitsOnly c4req.cardNumber).take 8 = issuerBin ∧
      (digitsOnly c4req.cardNumber).length = 16 ∧
      readLatestSingle [c4line] (lastN 6 (digitsOnly c4req.cardNumber)) = some c4rec ∧
      toLowerStr (trimStr c4req.email) = acEmailOf c4rec ∧
      lastN 10 (digitsOnly c4req.phone) = lastN 10 (acPhoneOf c4rec) ∧
      stripSpaces (toUpperStr (trimStr c4req.postal)) = stripSpaces (acPostalOf c4rec) ∧
      preAmountExceeds c4req.amount (acAvailOf c4rec) = false ∧
      parseMMYY c4req.expiration = some ((("03").data), (("25").data)) ∧
      normalizeMMYYFromStored (acExpiryRawOf c4rec) =
        some ((("03").data) ++ '/' :: (("25").data)) ∧
      (((some c4map).getD fun _ => none)
          (sha256hexOfStr (jsOr c4rec.loan_id [] ++ '|' :: acExpiryRawOf c4rec))).bind middle4Of =
        some c4req.twist ∧
      normE164CA c4req.phone = some (("+14165551234").data)) ∧
    ((preValidate c4req [c4line] (some c4map) (fun _ _ => false) []).otpCalls = 1 ∧
      ((preValidate c4req [c4line] (some c4map) (fun _ _ => false) []).ok = true ↔
        (fun _ _ => false : Str → Str → Bool) (("+14165551234").data) c4req.otpCode = true)) :=
  ⟨⟨by decide, by decide, by decide, by decide, by decide, by decide, by decide, by decide,
    by decide, by decide, by decide, by decide⟩,
   c4_theorem c4req [c4line] (some c4map) (fun _ _ => false) [] c4rec (("03").data)
     (("25").data) (("+14165551234").data) (by decide) (by decide) (by decide) (by decide)
     (Or.inr (by decide)) (Or.inr (by decide)) (Or.inr (by decide)) (by decide) (by decide)
     (by decide) (by decide) (by decide)⟩

set_option maxRecDepth 400000 in
theorem c5_witness :
    (missingRequired c5req = false ∧
      (digitsOnly c5req.cardNumber).take 8 = issuerBin ∧
      (digitsOnly c5req.cardNumber).length = 16 ∧
      readLatestSingle [c4line] (lastN 6 (digitsOnly c5req.cardNumber)) = some c4rec ∧
      toLowerStr (trimStr c5req.email) = acEmailOf c4rec ∧
      lastN 10 (digitsOnly c5req.phone) = lastN 10 (acPhoneOf c4rec) ∧
      stripSpaces (toUpperStr (trimStr c5req.postal)) = stripSpaces (acPostalOf c4rec) ∧
      preAmountExceeds c5req.amount (acAvailOf c4rec) = false ∧
      parseMMYY c5req.expiration = some ((("03").data), (("25").data)) ∧
      normalizeMMYYFromStored (acExpiryRawOf c4rec) =
        some ((("03").data) ++ '/' :: (("25").data)) ∧
      (((some c4map).getD fun _ => none)
          (sha256hexOfStr (jsOr c4rec.loan_id [] ++ '|' :: acExpiryRawOf c4rec))).bind middle4Of =
        some c5req.twist ∧
      normE164CA c5req.phone = some (("+14165551234").data) ∧
      (fun _ _ => false : Str → Str → Bool) (("+14165551234").data) c5req.otpCode = false) ∧
    (preValidate c5req [c4line] (some c4map) (fun _ _ => false) [] =
        preDeny (("OTP invalid or expired.").data) [] 1 ∧
      (preValidate c5req [c4line] (some c4map) (fun _ _ => false) []).statuses = [] ∧
      (preValidate c5req [c4line] (some c4map) (fun _ _ => false) []).ok = false) :=
  ⟨⟨by decide, by decide, by decide, by decide, by decide, by decide, by decide, by decide,
    by decide, by decide, by decide, by decide, by decide⟩,
   c5_theorem c5req [c4line] (some c4map) (fun _ _ => false) [] c4rec (("03").data)
     (("25").data) (("+14165551234").data) (by decide) (by decide) (by decide) (by decide)
     (Or.inr (by decide)) (Or.inr (by decide)) (Or.inr (by decide)) (by decide) (by decide)
     (by decide) (by decide) (by decide) (by decide)⟩

section StableSortLemmas

variable {α : Type} (le : α → α → Bool) (P : α → Prop)

theorem mergeRunsF_perm : ∀ (n : Nat) (xs ys : List α), (mergeRunsF le n xs ys).Perm (xs ++ ys) := by
  intro n
  induction n with
  | zero =>
      intro xs ys
      cases xs <;> cases ys <;> simp [mergeRunsF]
  | succ n ih =>
      intro xs ys
      cases xs with
      | nil => simp [mergeRunsF]
      | cons x xs =>
          cases ys with
          | nil => simp [mergeRunsF]
          | cons y ys =>
              simp only [mergeRunsF]
              by_cases h : le x y
              · rw [if_pos h]
                exact (ih xs (y :: ys)).cons x
              · rw [if_neg h]
                exact ((ih (x :: xs) ys).cons y).trans List.perm_middle.symm

theorem mergeRuns_perm (xs ys : List α) : (mergeRuns le xs ys).Perm (xs ++ ys) :=
  mergeRunsF_perm le _ xs ys

theorem mergeSortStableF_perm : ∀ (n : Nat) (l : List α), (mergeSortStableF le n l).Perm l := by
  intro n
  induction n with
  | zero => intro l; exact List.Perm.refl l
  | succ n ih =>
      intro l
      simp only [mergeSortStableF]
      by_cases h : l.length ≤ 1
      · rw [if_pos h]
      · rw [if_neg h]
        refine (mergeRuns_perm le _ _).trans ?_
        refine ((ih _).append (ih _)).trans ?_
        rw [List.take_append_drop]

theorem mergeSortStable_perm (l : List α) : (mergeSortStable le l).Perm l :=
  mergeSortStableF_perm le _ l

theorem mergeRunsF_pairwise
    (htrans : ∀ a b c, P a → P b → P c → le a b = true → le b c = true → le a c = true)
    (htotal : ∀ a b, P a → P b → le a b = true ∨ le b a = true) :
    ∀ (n : Nat) (xs ys : List α),
    xs.length + ys.length ≤ n →
    (∀ x ∈ xs, P x) → (∀ y ∈ ys, P y) →
    xs.Pairwise (fun a b => le a b = true) → ys.Pairwise (fun a b => le a b = true) →
    (mergeRunsF le n xs ys).Pairwise (fun a b => le a b = true) := by
  intro n
  induction n with
  | zero =>
      intro xs ys hlen hPx hPy hx hy
      cases xs with
      | nil => simpa [mergeRunsF] using hy
      | cons x xs => simp at hlen
  | succ n ih =>
      intro xs ys hlen hPx hPy hx hy
      cases xs with
      | nil => simpa [mergeRunsF] using hy
      | cons x xs =>
          cases ys with
          | nil => simpa [mergeRunsF] using hx
          | cons y ys =>
              simp only [mergeRunsF]
              rcases List.pairwise_cons.mp hx with ⟨hxall, hxtail⟩
              rcases List.pairwise_cons.mp hy with ⟨hyall, hytail⟩
              by_cases h : le x y
              · rw [if_pos h]
                refine List.pairwise_cons.mpr ⟨?_, ?_⟩
                · intro z hz
                  have hz' : z ∈ xs ++ y :: ys := (mergeRunsF_perm le n xs (y :: ys)).mem_iff.mp hz
                  rcases List.mem_append.mp hz' with hz1 | hz2
                  · exact hxall z hz1
                  · rcases List.mem_cons.mp hz2 with rfl | hz3
                    · exact h
                    · exact htrans x y z (hPx x (by simp)) (hPy y (by simp))
                        (hPy z (by simp [hz3])) h (hyall z hz3)
                · exact ih xs (y :: ys) (by simp only [List.length_cons] at hlen ⊢; omega)
                    (fun a ha => hPx a (by simp [ha])) hPy hxtail hy
              · rw [if_neg h]
                have hyx : le y x = true := by
                  rcases htotal x y (hPx x (by simp)) (hPy y (by simp)) with h1 | h1
                  · exact absurd h1 (by simpa using h)
                  · exact h1
                refine List.pairwise_cons.mpr ⟨?_, ?_⟩
                · intro z hz
                  have hz' : z ∈ (x :: xs) ++ ys := (mergeRunsF_perm le n (x :: xs) ys).mem_iff.mp hz
                  rcases List.mem_append.mp hz' with hz1 | hz2
                  · rcases List.mem_cons.mp hz1 with rfl | hz3
                    · exact hyx
                    · exact htrans y x z (hPy y (by simp)) (hPx x (by simp))
                        (hPx z (by simp [hz3])) hyx (hxall z hz3)
                  · exact hyall z hz2
                · exact ih (x :: xs) ys (by simp only [List.length_cons] at hlen ⊢; omega)
                    hPx (fun a ha => hPy a (by simp [ha])) hx hytail

theorem mergeRuns_pairwise
    (htrans : ∀ a b c, P a → P b → P c → le a b = true → le b c = true → le a c = true)
    (htotal : ∀ a b, P a → P b → le a b = true ∨ le b a = true) (xs ys : List α)
    (hPx : ∀ x ∈ xs, P x) (hPy : ∀ y ∈ ys, P y)
    (hx : xs.Pairwise (fun a b => le a b = true)) (hy : ys.Pairwise (fun a b => le a b = true)) :
    (mergeRuns le xs ys).Pairwise (fun a b => le a b = true) :=
  mergeRunsF_pairwise le P htrans htotal _ xs ys (le_refl _) hPx hPy hx hy

theorem mergeSortStableF_pairwise
    (htrans : ∀ a b c, P a → P b → P c → le a b = true → le b c = true → le a c = true)
    (htotal : ∀ a b, P a → P b → le a b = true ∨ le b a = true) : ∀ (n : Nat) (l : List α),
    l.length ≤ n → (∀ x ∈ l, P x) →
    (mergeSortStableF le n l).Pairwise (fun a b => le a b = true) := by
  intro n
  induction n with
  | zero =>
      intro l hlen hP
      have hnil : l = [] := List.length_eq_zero.mp (by omega)
      subst hnil
      simp [mergeSortStableF]
  | succ n ih =>
      intro l hlen hP
      simp only [mergeSortStableF]
      by_cases h : l.length ≤ 1
      · rw [if_pos h]
        cases l with
        | nil => simp
        | cons a t =>
            cases t with
            | nil => simp
            | cons b t2 => simp at h
      · rw [if_neg h]
        have h2 : 2 ≤ l.length := by omega
        have htake : (l.take (l.length / 2)).length ≤ n := by
          simp only [List.length_take]
          omega
        have hdrop : (l.drop (l.length / 2)).length ≤ n := by
          simp only [List.length_drop]
          omega
        have hPtake : ∀ x ∈ l.take (l.length / 2), P x :=
          fun x hx => hP x (List.take_subset _ _ hx)
        have hPdrop : ∀ x ∈ l.drop (l.length / 2), P x :=
          fun x hx => hP x (List.drop_subset _ _ hx)
        refine mergeRuns_pairwise le P htrans htotal _ _ ?_ ?_ (ih _ htake hPtake) (ih _ hdrop hPdrop)
        · exact fun x hx => hPtake x ((mergeSortStableF_perm le n _).mem_iff.mp hx)
        · exact fun x hx => hPdrop x ((mergeSortStableF_perm le n _).mem_iff.mp hx)

theorem mergeSortStable_pairwise
    (htrans : ∀ a b c, P a → P b → P c → le a b = true → le b c = true → le a c = true)
    (htotal : ∀ a b, P a → P b → le a b = true ∨ le b a = true) (l : List α) (hP : ∀ x ∈ l, P x) :
    (mergeSortStable le l).Pairwise (fun a b => le a b = true) :=
  mergeSortStableF_pairwise le P htrans htotal _ l (le_refl _) hP

theorem pairwise_find_best {q : α → Bool} : ∀ (S : List α) (m : α),
    S.Pairwise (fun a b => le a b = true) → S.find? q = some m →
    ∀ k ∈ S, q k = true → m = k ∨ le m k = true := by
  intro S
  induction S with
  | nil => intro m _ hf; simp [List.find?] at hf
  | cons a t ih =>
      intro m hp hf k hk hq
      rcases List.pairwise_cons.mp hp with ⟨hall, htail⟩
      by_cases hqa : q a = true
      · rw [List.find?_cons_of_pos _ hqa] at hf
        have hm : m = a := (Option.some.inj hf).symm
        rcases List.mem_cons.mp hk with rfl | hk2
        · exact Or.inl hm
        · exact Or.inr (hm ▸ hall k hk2)
      · rw [List.find?_cons_of_neg _ (by simpa using hqa)] at hf
        rcases List.mem_cons.mp hk with rfl | hk2
        · exact absurd hq hqa
        · exact ih m htail hf k hk2 hq

end StableSortLemmas

theorem cmpLines_eq (a b : IndexedLine) (ta tb : Int)
    (hta : a.line.ts = some ta) (htb : b.line.ts = some tb) :
    cmpLines a b = true ↔ (tb < ta ∨ (ta = tb ∧ a.idx ≤ b.idx)) := by
  simp only [cmpLines, hta, htb]
  by_cases h : ta = tb
  · simp [h]
  · simp [h]

theorem indexFrom_line_mem : ∀ (l : List LogLine) (n : Nat) (x : IndexedLine),
    x ∈ indexFrom l n → x.line ∈ l := by
  intro l
  induction l with
  | nil => intro n x hx; simp [indexFrom] at hx
  | cons a t ih =>
      intro n x hx
      simp only [indexFrom, List.mem_cons] at hx
      rcases hx with rfl | hx
      · simp
      · exact List.mem_cons_of_mem _ (ih _ x hx)

/-- Claim C6 (counterexample): with a line lacking a parseable timestamp
between them, the sort comparator of `readMergedLogText` is inconsistent and
append order prevails: for the log `[ts 10 matching, no-ts, ts 20 matching]`
the scan returns the ts-10 entry, not the later ts-20 entry.  (An ECMAScript
engine's `Array.prototype.sort` leaves this array unchanged as well, since
consecutive comparator calls all report ascending order, so the whole array
is one run.) -/
theorem c6_counterexample :
    lineMatches (("333444").data) c6A = true ∧
    lineMatches (("333444").data) c6B = true ∧
    c6A.ts = some 10 ∧ c6B.ts = some 20 ∧ (10 : Int) < 20 ∧
    findLatestPayloadByLoanIdEndsWith [[c6A, c6N, c6B]] (("333444").data) = c6A.entry ∧
    c6A.entry ≠ c6B.entry := by decide

/-- Claim C6 (amended): provided every merged log line carries a parseable
timestamp, `findLatestPayloadByLoanIdEndsWith` returns the entry of a
suffix-matching line of maximal timestamp — in particular, of any two
matching lines with different timestamps, it never returns the older one —
regardless of which backing file holds each line and of append order; among
matching lines of equal (maximal) timestamp the earliest appended wins.
Without the timestamp proviso the comparator is inconsistent and the
guarantee fails (see the counterexample). -/
theorem c6_theorem (files : List (List LogLine)) (suffix : Str)
    (hall : ∀ l ∈ files.flatten, (l.ts).isSome = true)
    (pi pj : IndexedLine) (ti tj : Int)
    (hi : pi ∈ indexFrom files.flatten 0) (_hj : pj ∈ indexFrom files.flatten 0)
    (hqi : lineMatches suffix pi.line = true) (_hqj : lineMatches suffix pj.line = true)
    (hti : pi.line.ts = some ti) (_htj : pj.line.ts = some tj) (hij : tj < ti) :
    ∃ (m : IndexedLine) (tm : Int), m ∈ indexFrom files.flatten 0 ∧
      lineMatches suffix m.line = true ∧ m.line.ts = some tm ∧
      findLatestPayloadByLoanIdEndsWith files suffix = m.line.entry ∧
      ti ≤ tm ∧ tj < tm ∧
      (∀ k ∈ indexFrom files.flatten 0, lineMatches suffix k.line = true →
        ∀ tk : Int, k.line.ts = some tk → tk ≤ tm ∧ (tk = tm → m.idx ≤ k.idx)) := by
  classical
  set L := indexFrom files.flatten 0 with hL
  set S := mergeSortStable cmpLines L with hS
  have hperm : S.Perm L := mergeSortStable_perm cmpLines L
  have hPL : ∀ x ∈ L, (x.line.ts).isSome = true :=
    fun x hx => hall x.line (indexFrom_line_mem _ _ x hx)
  have htrans : ∀ a b c : IndexedLine, (a.line.ts).isSome = true →
      (b.line.ts).isSome = true → (c.line.ts).isSome = true →
      cmpLines a b = true → cmpLines b c = true → cmpLines a c = true := by
    intro a b c pa pb pc hab hbc
    obtain ⟨ta, hta⟩ := Option.isSome_iff_exists.mp pa
    obtain ⟨tb, htb⟩ := Option.isSome_iff_exists.mp pb
    obtain ⟨tc, htc⟩ := Option.isSome_iff_exists.mp pc
    rw [cmpLines_eq a b ta tb hta htb] at hab
    rw [cmpLines_eq b c tb tc htb htc] at hbc
    rw [cmpLines_eq a c ta tc hta htc]
    omega
  have htotal : ∀ a b : IndexedLine, (a.line.ts).isSome = true →
      (b.line.ts).isSome = true → cmpLines a b = true ∨ cmpLines b a = true := by
    intro a b pa pb
    obtain ⟨ta, hta⟩ := Option.isSome_iff_exists.mp pa
    obtain ⟨tb, htb⟩ := Option.isSome_iff_exists.mp pb
    rw [cmpLines_eq a b ta tb hta htb, cmpLines_eq b a tb ta htb hta]
    omega
  have hpair : S.Pairwise (fun a b => cmpLines a b = true) :=
    mergeSortStable_pairwise cmpLines (fun x => (x.line.ts).isSome = true) htrans htotal L hPL
  have hiS : pi ∈ S := hperm.mem_iff.mpr hi
  have hfind : (S.find? fun p => lineMatches suffix p.line).isSome = true :=
    List.find?_isSome.mpr ⟨pi, hiS, hqi⟩
  obtain ⟨m, hm⟩ := Option.isSome_iff_exists.mp hfind
  have hqm : lineMatches suffix m.line = true :=
    @List.find?_some _ (fun p => lineMatches suffix p.line) m S hm
  have hmS : m ∈ S := @List.mem_of_find?_eq_some _ (fun p => lineMatches suffix p.line) m S hm
  have hmL : m ∈ L := hperm.mem_iff.mp hmS
  obtain ⟨tm, htm⟩ := Option.isSome_iff_exists.mp (hPL m hmL)
  have hbest : ∀ k ∈ L, lineMatches suffix k.line = true →
      ∀ tk : Int, k.line.ts = some tk → tk ≤ tm ∧ (tk = tm → m.idx ≤ k.idx) := by
    intro k hkL hqk tk htk
    have hkS : k ∈ S := hperm.mem_iff.mpr hkL
    rcases pairwise_find_best cmpLines S m hpair hm k hkS hqk with rfl | hle
    · have : tk = tm := by rw [htk] at htm; exact Option.some.inj htm
      exact ⟨le_of_eq this, fun _ => le_refl _⟩
    · rw [cmpLines_eq m k tm tk htm htk] at hle
      constructor
      · omega
      · intro he
        rcases hle with h1 | ⟨h1, h2⟩
        · omega
        · exact h2
  have hmax_i := hbest pi hi hqi ti hti
  refine ⟨m, tm, hmL, hqm, htm, ?_, hmax_i.1, lt_of_lt_of_le hij hmax_i.1, hbest⟩
  show ((S.find? fun p => lineMatches suffix p.line).bind fun p => p.line.entry) = m.line.entry
  rw [hm]
  rfl

theorem c6_witness :
    ((∀ l ∈ ([[c6w1], [c6w2]] : List (List LogLine)).flatten, (l.ts).isSome = true) ∧
      (⟨c6w2, 1⟩ : IndexedLine) ∈ indexFrom ([[c6w1], [c6w2]] : List (List LogLine)).flatten 0 ∧
      (⟨c6w1, 0⟩ : IndexedLine) ∈ indexFrom ([[c6w1], [c6w2]] : List (List LogLine)).flatten 0 ∧
      lineMatches (("777888").data) c6w2 = true ∧
      lineMatches (("777888").data) c6w1 = true ∧
      c6w2.ts = some 200 ∧ c6w1.ts = some 100 ∧ (100 : Int) < 200) ∧
    (∃ (m : IndexedLine) (tm : Int),
      m ∈ indexFrom ([[c6w1], [c6w2]] : List (List LogLine)).flatten 0 ∧
      lineMatches (("777888").data) m.line = true ∧ m.line.ts = some tm ∧
      findLatestPayloadByLoanIdEndsWith [[c6w1], [c6w2]] (("777888").data) = m.line.entry ∧
      (200 : Int) ≤ tm ∧ (100 : Int) < tm ∧
      (∀ k ∈ indexFrom ([[c6w1], [c6w2]] : List (List LogLine)).flatten 0,
        lineMatches (("777888").data) k.line = true →
        ∀ tk : Int, k.line.ts = some tk → tk ≤ tm ∧ (tk = tm → m.idx ≤ k.idx))) :=
  ⟨⟨by decide, by decide, by decide, by decide, by decide, by decide, by decide, by decide⟩,
   c6_theorem [[c6w1], [c6w2]] (("777888").data) (by decide) ⟨c6w2, 1⟩ ⟨c6w1, 0⟩ 200 100
     (by decide) (by decide) (by decide) (by decide) (by decide) (by decide) (by decide)⟩

theorem c2_witness :
    c2loan ≠ [] ∧ c2exp ≠ [] ∧ c2code.length = 12 ∧
    alookup (sha256hexOfStr (c2loan ++ '|' :: c2exp)) c2store = some c2code ∧
    alookup (seedOf c2loan c2exp) c2db.codes = some c2code ∧
    (getOrGenerateTwistCodeV2 c2store c2loan c2exp (fun _ => 3) = ⟨some c2code, c2store⟩ ∧
      (getOrGenerateTwistCodeV3 c2db c2loan c2exp).1 = some c2code ∧
      ((getOrGenerateTwistCodeV3 c2db c2loan c2exp).2).codes = c2db.codes) :=
  ⟨by decide, by decide, by decide, by simp [c2store, alookup], by simp [c2db, alookup],
   c2_theorem _ _ _ _ _ _ (by decide) (by decide) (by decide)
     (by simp [c2store, alookup]) (by simp [c2db, alookup])⟩

